import Mathlib

/-!
# Helios WebSocket server core — verification of spec claims

Shallow embedding of the connection-lifecycle and messaging substrate of the
Helios server: the per-connection request/response tracker
(`src/connection.js`), the connection registry with session recovery
(`src/connections.js`), the close handling of the coordinator
(`src/helios.js`), and the room broker (`src/rooms/RoomManager.js`).

JavaScript `Date.now()` timestamps and millisecond durations are modelled as
rationals (ℚ), so that expressions such as `ttl / 2` keep their exact
JavaScript-number value.  JS `Map`s with keys of a type `K` are modelled as
functions `K → Option V` updated with `Function.update`; JS `Set`s as
`Finset`.
-/

namespace Helios

/-- Connection lifecycle state: `'OPEN' | 'CLOSING' | 'CLOSED'`
(`src/connection.js`, constructor). -/
inductive CState
  | OPEN
  | CLOSING
  | CLOSED
deriving DecidableEq, Repr

/-! ## Request/response tracker (`Connection.request`, `src/connection.js` 77–126)

A single pending request is tracked by: its `pendingRequests` entry, the two
Pulse `once`-listeners (`response:<id>` and `error:<id>`), the timeout timer,
and the promise it returns.  Settling a JS promise a second time is a no-op,
which the model captures with `Option.orElse` in `settle`.  `inRegistry`
models `this.helios.connections.has(this.ws)` for the connection's *current*
`ws` (the timeout callback re-reads `this.ws`, so a reconnect makes the check
true again for the new socket). -/

/-- How the future returned by `request` was settled. -/
inductive Completion
  | resolved
  | timedOut
  | closedErr
deriving DecidableEq, Repr

/-- Observable state of one pending request and its connection. -/
structure ReqState where
  /-- `pendingRequests.has(requestId)` -/
  entry : Bool
  /-- the `response:<id>` once-listener is registered -/
  respListener : Bool
  /-- the `error:<id>` once-listener is registered -/
  errListener : Bool
  /-- the timeout timer is scheduled and not yet fired or cleared -/
  timer : Bool
  /-- `helios.connections.has(connection.ws)` for the current socket -/
  inRegistry : Bool
  /-- the connection's `state` field -/
  connState : CState
  /-- settlement of the returned promise, if any -/
  completed : Option Completion
deriving DecidableEq, Repr

/-- Settle the promise; a second settlement is a no-op (JS promise semantics). -/
def settle (k : Completion) (s : ReqState) : ReqState :=
  { s with completed := s.completed.orElse (fun _ => some k) }

/-- The `cleanup` closure of `Connection.request`: `clearTimeout`, remove both
listeners, `pendingRequests.delete(requestId)`. -/
def cleanupReq (s : ReqState) : ReqState :=
  { s with timer := false, respListener := false, errListener := false, entry := false }

/-- External events that can touch one pending request. -/
inductive ReqAction
  /-- a `Response` with the matching `requestId` arrives (`handleResponse`) -/
  | respArrive
  /-- the request's timeout timer fires -/
  | timerFire
  /-- transport close handled with full teardown (`Helios.handleClose`, no-recovery branch) -/
  | closeFull
  /-- transport close handled with session recovery (`markDisconnected` branch) -/
  | closeRecovery
  /-- a successful session recovery rebinds the connection to a new socket -/
  | reconnectEvt
deriving DecidableEq, Repr

/-- One step of the request lifecycle, straight from the source:

* `respArrive`: `handleResponse` drops the response when
  `state ∈ {CLOSING, CLOSED}`; otherwise it emits `response:<id>`, whose
  `once`-listener (if still registered) runs `cleanup()` then `resolve`.
* `timerFire`: the `setTimeout` callback runs only while the timer is live; it
  emits `error:<id>` only `if (this.helios.connections.has(this.ws))`; the
  `once`-listener (if registered) runs `cleanup()` then `reject(timeout)`.
* `closeFull`: `handleClose` without recovery clears the timer, runs
  `cleanup()`, rejects with `ConnectionClosedError`, clears the map, deletes
  the socket from the registry and sets `state = 'CLOSED'`.
* `closeRecovery`: `handleClose` with recovery only calls
  `markDisconnected` (socket leaves the registry) and sets `state='CLOSED'`;
  pending requests are untouched.
* `reconnectEvt`: `Connections.reconnect` swaps in the new socket
  (`state='OPEN'`) and indexes it, so the timeout's registry check sees it. -/
def reqStep (a : ReqAction) (s : ReqState) : ReqState :=
  match a with
  | .respArrive =>
      if s.connState = .CLOSING ∨ s.connState = .CLOSED then s
      else if s.respListener then settle .resolved (cleanupReq s) else s
  | .timerFire =>
      if s.timer then
        let s1 := { s with timer := false }
        if s.inRegistry then
          if s.errListener then settle .timedOut (cleanupReq s1) else s1
        else s1
      else s
  | .closeFull =>
      let s1 := { s with connState := .CLOSED, inRegistry := false }
      if s.entry then settle .closedErr (cleanupReq s1) else { s1 with entry := false }
  | .closeRecovery =>
      { s with connState := .CLOSED, inRegistry := false }
  | .reconnectEvt =>
      { s with connState := .OPEN, inRegistry := true }

/-- State right after `request` returns on an `OPEN`, registered connection:
entry installed, both listeners registered, timer armed, promise pending. -/
def reqInit : ReqState :=
  ⟨true, true, true, true, true, .OPEN, none⟩

/-- The request state after a sequence of external events. -/
def runReq (as : List ReqAction) : ReqState :=
  as.foldl (fun s a => reqStep a s) reqInit

lemma reqStep_completed_mono (a : ReqAction) (s : ReqState) (k : Completion)
    (h : s.completed = some k) : (reqStep a s).completed = some k := by
  cases a <;>
    simp only [reqStep, settle, cleanupReq] <;>
    (try split_ifs) <;>
    simp_all [Option.orElse]

lemma reqStep_completion_paths (a : ReqAction) (s : ReqState) (k : Completion)
    (h0 : s.completed = none) (h1 : (reqStep a s).completed = some k) :
    (reqStep a s).entry = false ∧
      ((k = .resolved ∧ a = .respArrive) ∨
       (k = .timedOut ∧ a = .timerFire ∧ s.inRegistry = true) ∨
       (k = .closedErr ∧ a = .closeFull)) := by
  cases a <;>
    simp only [reqStep, settle, cleanupReq] at h1 ⊢ <;>
    (try split_ifs at h1 ⊢) <;>
    simp_all [Option.orElse]

/-- **C1.** For a request issued on an `OPEN`, registered connection, any run of
external events settles the returned future at most once, and only by one of
the three paths: a matching `Response` resolves it; the timeout rejects it,
and only when the connection's socket is still in the registry's transport
index when the timer fires; full-teardown close rejects it with
`CONNECTION_CLOSED`.  Whichever path settles it also removes the
`pendingRequests` entry, and the removal (`cleanup`) is idempotent. -/
theorem request_settled_at_most_once (as : List ReqAction) (a : ReqAction) :
    (∀ k, (runReq as).completed = some k → (reqStep a (runReq as)).completed = some k) ∧
    ((runReq as).completed = none →
      ∀ k, (reqStep a (runReq as)).completed = some k →
        (reqStep a (runReq as)).entry = false ∧
          ((k = .resolved ∧ a = .respArrive) ∨
           (k = .timedOut ∧ a = .timerFire ∧ (runReq as).inRegistry = true) ∨
           (k = .closedErr ∧ a = .closeFull))) ∧
    cleanupReq (cleanupReq (runReq as)) = cleanupReq (runReq as) := by
  refine ⟨fun k hk => reqStep_completed_mono a _ k hk,
    fun h0 k h1 => reqStep_completion_paths a _ k h0 h1, rfl⟩

/-- Witness for C1: on the empty history the state is the fresh request; the
timeout path settles the future with `timedOut` while removing the entry. -/
theorem request_settled_at_most_once_witness :
    (reqStep .timerFire (runReq [])).entry = false ∧
      (reqStep .timerFire (runReq [])).completed = some .timedOut := by
  have h := (request_settled_at_most_once [] .timerFire).2.1
  exact ⟨(h (by decide) .timedOut (by decide)).1, by decide⟩

/-! ## Connection registry (`Connections`, `src/connections.js`)

`Connections extends Map<ServerWebSocket, Connection>`, with two further maps
`sessionMap : Map<sessionId, Connection>` and
`disconnectedSessions : Map<sessionId, {connection, expiresAt}>`.  Session ids
are modelled as `Nat`, socket handles as an arbitrary type `W` with decidable
equality, and a connection by the fields the registry reads. -/

/-- A connection as seen by the registry. -/
structure RConn where
  id : Nat
  sessionId : Option Nat
deriving DecidableEq, Repr

/-- The three maps of `Connections`. -/
structure Registry (W : Type) where
  wsMap : W → Option RConn
  sessionMap : Nat → Option RConn
  disconnected : Nat → Option (RConn × ℚ)

/-- `Connections.findBySessionId` (`src/connections.js` 43–55): an active
`sessionMap` entry first; else a disconnected entry with
`Date.now() < expiresAt`; else `null`. -/
def findBySessionId {W : Type} (st : Registry W) (now : ℚ) (sid : Nat) : Option RConn :=
  match st.sessionMap sid with
  | some conn => some conn
  | none =>
    match st.disconnected sid with
    | some (conn, expiresAt) => if now < expiresAt then some conn else none
    | none => none

/-- `Connections.markDisconnected` (`src/connections.js` 87–100): a no-op
unless the socket maps to a connection carrying a `sessionId`; then the socket
is removed from the transport map and a disconnected entry expiring at
`now + ttl` is inserted.  The `sessionMap` entry is not touched. -/
def markDisconnected {W : Type} [DecidableEq W] (st : Registry W) (now ttl : ℚ) (w : W) :
    Registry W :=
  match st.wsMap w with
  | none => st
  | some conn =>
    match conn.sessionId with
    | none => st
    | some sid =>
      { st with
        wsMap := Function.update st.wsMap w none,
        disconnected := Function.update st.disconnected sid (some (conn, now + ttl)) }

/-- The body of the periodic cleanup of `Connections.startCleanup`
(`src/connections.js` 105–124) run at time `now`: every disconnected entry
with `now ≥ expiresAt` is removed from both `sessionMap` and
`disconnectedSessions`.  The loop touches each session id at most once, so it
is rendered pointwise. -/
def sweep {W : Type} (st : Registry W) (now : ℚ) : Registry W :=
  { st with
    sessionMap := fun sid =>
      match st.disconnected sid with
      | some (_, expiresAt) => if now ≥ expiresAt then none else st.sessionMap sid
      | none => st.sessionMap sid,
    disconnected := fun sid =>
      match st.disconnected sid with
      | some (conn, expiresAt) => if now ≥ expiresAt then none else some (conn, expiresAt)
      | none => st.disconnected sid }

/-- A registry with one open connection (socket `0`, session id `7`), as left
by `Connections.new` followed by `createSession`. -/
def regC2 : Registry Nat :=
  { wsMap := fun w => if w = 0 then some ⟨1, some 7⟩ else none,
    sessionMap := fun sid => if sid = 7 then some ⟨1, some 7⟩ else none,
    disconnected := fun _ => none }

/-- Counterexample to C2 as stated: after `markDisconnected` has run (at time
0, ttl 100) and the disconnected entry has expired (now = 200 ≥ 100),
`findBySessionId` still returns the connection — the `sessionMap` entry
installed by `createSession` is never removed by `markDisconnected`, and
`findBySessionId` consults it first.  The claim says the result is null. -/
theorem findBySessionId_expired_counterexample :
    (markDisconnected regC2 0 100 0).disconnected 7 = some (⟨1, some 7⟩, 100) ∧
      ((200 : ℚ) < 100) = False ∧
      findBySessionId (markDisconnected regC2 0 100 0) 200 7 = some ⟨1, some 7⟩ := by
  refine ⟨?_, by norm_num, ?_⟩ <;>
    simp [markDisconnected, findBySessionId, regC2, Function.update]

/-- **C2 (amended).** `findBySession` returns the `sessionMap` entry whenever
one exists — and `markDisconnected` does not remove that entry, so until the
periodic sweep has run, a disconnected (even expired) session still resolves
to its connection.  With no `sessionMap` entry, it returns the connection of
a disconnected entry whose `expiresAt` is strictly greater than now,
otherwise null.  After `markDisconnected` and a subsequent sweep at any time
`now2 ≥ expiresAt`, `findBySession` returns null. -/
theorem findBySessionId_characterization {W : Type} [DecidableEq W]
    (st : Registry W) (now now2 ttl : ℚ) (w : W) (conn : RConn) (sid : Nat) :
    (∀ c, st.sessionMap sid = some c → findBySessionId st now sid = some c) ∧
    (st.sessionMap sid = none → ∀ c e, st.disconnected sid = some (c, e) →
      findBySessionId st now sid = if now < e then some c else none) ∧
    (st.sessionMap sid = none → st.disconnected sid = none →
      findBySessionId st now sid = none) ∧
    (markDisconnected st now ttl w).sessionMap = st.sessionMap ∧
    (st.wsMap w = some conn → conn.sessionId = some sid → now2 ≥ now + ttl →
      findBySessionId (sweep (markDisconnected st now ttl w) now2) now2 sid = none) := by
  refine ⟨?_, ?_, ?_, ?_, ?_⟩
  · intro c hc
    simp [findBySessionId, hc]
  · intro h0 c e hd
    simp [findBySessionId, h0, hd]
  · intro h0 hd
    simp [findBySessionId, h0, hd]
  · rcases hw : st.wsMap w with _ | conn'
    · simp [markDisconnected, hw]
    · rcases hs : conn'.sessionId with _ | sid'
      · simp [markDisconnected, hw, hs]
      · simp [markDisconnected, hw, hs]
  · intro hw hs h2
    simp only [markDisconnected, hw, hs]
    simp [sweep, findBySessionId, Function.update_same, ge_iff_le, h2]

/-- Witness for C2's amended theorem at the concrete registry. -/
theorem findBySessionId_characterization_witness :
    findBySessionId (sweep (markDisconnected regC2 0 100 0) 200) 200 7 = none := by
  have h := (findBySessionId_characterization regC2 0 200 100 0 ⟨1, some 7⟩ 7).2.2.2.2
  exact h (by simp [regC2]) rfl (by norm_num)

/-! ## Room broker (`RoomManager`, `src/rooms/RoomManager.js`)

The two subscription indexes `#connectionSubscriptions : Map<Connection,
Set<topic>>` and `#topicConnections : Map<topic, Set<Connection>>` are
modelled by explicit key sets together with total functions returning `∅` at
absent keys (a `map.get` of an absent key yields no set; the manager deletes
a key whenever its set empties, so present keys carry nonempty sets).
Connections `C` and topics `T` are abstract types with decidable equality;
the external `CapturePatternMatcher` of `@aionbuilders/helios-protocol` is an
abstract `matchFn : T → T → Bool`. -/

/-- The two paired subscription indexes of `RoomManager`. -/
structure RoomState (C T : Type) where
  byConnKeys : Finset C
  byConn : C → Finset T
  byTopicKeys : Finset T
  byTopic : T → Finset C

namespace RoomState

variable {C T : Type} [DecidableEq C] [DecidableEq T]

/-- `#addSubscription` (`RoomManager.js` 304–316): ensure each key has a set,
then add the element to both indexes. -/
def addSubscription (c : C) (t : T) (s : RoomState C T) : RoomState C T :=
  { byConnKeys := insert c s.byConnKeys,
    byConn := Function.update s.byConn c (insert t (s.byConn c)),
    byTopicKeys := insert t s.byTopicKeys,
    byTopic := Function.update s.byTopic t (insert c (s.byTopic t)) }

/-- `#removeSubscription` (`RoomManager.js` 322–342): remove the pair from
both indexes, deleting a key whose set empties; returns whether the topic was
actually removed from the connection's set. -/
def removeSubscription (c : C) (t : T) (s : RoomState C T) : RoomState C T × Bool :=
  if c ∈ s.byConnKeys then
    let ts := (s.byConn c).erase t
    let s1 : RoomState C T :=
      { s with
        byConn := Function.update s.byConn c ts,
        byConnKeys := if ts = ∅ then s.byConnKeys.erase c else s.byConnKeys }
    let s2 : RoomState C T :=
      if t ∈ s1.byTopicKeys then
        let cs := (s1.byTopic t).erase c
        { s1 with
          byTopic := Function.update s1.byTopic t cs,
          byTopicKeys := if cs = ∅ then s1.byTopicKeys.erase t else s1.byTopicKeys }
      else s1
    (s2, t ∈ s.byConn c)
  else (s, false)

/-- `cleanup` (`RoomManager.js` 263–278): for every topic the connection is
subscribed to, delete it from that topic's set (dropping the key if the set
empties), then drop the connection's own key.  The loop touches each topic at
most once, so it is rendered pointwise. -/
def cleanup (c : C) (s : RoomState C T) : RoomState C T :=
  if c ∈ s.byConnKeys then
    let ts := s.byConn c
    { byConnKeys := s.byConnKeys.erase c,
      byConn := Function.update s.byConn c ∅,
      byTopicKeys := s.byTopicKeys.filter (fun t => ¬(t ∈ ts ∧ (s.byTopic t).erase c = ∅)),
      byTopic := fun t => if t ∈ ts then (s.byTopic t).erase c else s.byTopic t }
  else s

/-- The paired-index invariant of the broker: a `(c, t)` pair is in both
indexes or in neither, and a key is stored exactly when its set is nonempty
(emptied sets are deleted). -/
def Inv (s : RoomState C T) : Prop :=
  (∀ c t, c ∈ s.byTopic t ↔ t ∈ s.byConn c) ∧
  (∀ c, c ∈ s.byConnKeys ↔ s.byConn c ≠ ∅) ∧
  (∀ t, t ∈ s.byTopicKeys ↔ s.byTopic t ≠ ∅)

lemma inv_addSubscription (c : C) (t : T) (s : RoomState C T) (h : Inv s) :
    Inv (addSubscription c t s) := by
  obtain ⟨h1, h2, h3⟩ := h
  refine ⟨?_, ?_, ?_⟩
  · intro c' t'
    by_cases hc : c' = c <;> by_cases ht : t' = t <;>
      simp [addSubscription, Function.update_apply, hc, ht, h1]
  · intro c'
    by_cases hc : c' = c <;>
      simp [addSubscription, Function.update_apply, hc, h2,
        Finset.insert_ne_empty]
  · intro t'
    by_cases ht : t' = t <;>
      simp [addSubscription, Function.update_apply, ht, h3,
        Finset.insert_ne_empty]

lemma inv_removeSubscription (c : C) (t : T) (s : RoomState C T) (h : Inv s) :
    Inv (removeSubscription c t s).1 := by
  obtain ⟨h1, h2, h3⟩ := h
  by_cases hck : c ∈ s.byConnKeys
  · by_cases htk : t ∈ s.byTopicKeys
    · simp only [removeSubscription, hck, htk, if_true]
      refine ⟨?_, ?_, ?_⟩
      · intro c' t'
        by_cases hc : c' = c <;> by_cases ht : t' = t <;>
          simp [Function.update_apply, hc, ht, Finset.mem_erase, h1]
      · intro c'
        by_cases hts : (s.byConn c).erase t = ∅ <;>
          by_cases hc : c' = c <;>
            simp [Function.update_apply, hts, hc, Finset.mem_erase, h2, hck] <;>
          exact fun he => hts (by simp [he])
      · intro t'
        by_cases hcs : (s.byTopic t).erase c = ∅ <;>
          by_cases ht : t' = t <;>
            simp [Function.update_apply, hcs, ht, Finset.mem_erase, h3, htk] <;>
          exact fun he => hcs (by simp [he])
    · have hempty : s.byTopic t = ∅ := by
        by_contra hne
        exact htk ((h3 t).mpr hne)
      simp only [removeSubscription, hck, htk, if_true, if_false]
      refine ⟨?_, ?_, ?_⟩
      · intro c' t'
        by_cases hc : c' = c <;> by_cases ht : t' = t <;>
          simp [Function.update_apply, hc, ht, Finset.mem_erase, h1, hempty] <;>
          exact fun hm => Finset.not_mem_empty c' (hempty ▸ (h1 c' t).mpr hm)
      · intro c'
        by_cases hts : (s.byConn c).erase t = ∅ <;>
          by_cases hc : c' = c <;>
            simp [Function.update_apply, hts, hc, Finset.mem_erase, h2, hck] <;>
          exact fun he => hts (by simp [he])
      · intro t'
        simp [h3]
  · simpa [removeSubscription, hck] using ⟨h1, h2, h3⟩

lemma inv_cleanup (c : C) (s : RoomState C T) (h : Inv s) :
    Inv (cleanup c s) := by
  obtain ⟨h1, h2, h3⟩ := h
  by_cases hck : c ∈ s.byConnKeys
  · simp only [cleanup, hck, if_true]
    refine ⟨?_, ?_, ?_⟩
    · intro c' t'
      by_cases hc : c' = c <;> by_cases ht : t' ∈ s.byConn c <;>
        simp [Function.update_apply, hc, ht, Finset.mem_erase, h1]
    · intro c'
      by_cases hc : c' = c <;>
        simp [Function.update_apply, hc, Finset.mem_erase, h2]
    · intro t'
      by_cases ht : t' ∈ s.byConn c <;>
        by_cases hte : (s.byTopic t').erase c = ∅ <;>
          simp [Finset.mem_filter, ht, hte, h3, Finset.mem_erase] <;>
        exact fun he => hte (by simp [he])
  · simpa [cleanup, hck] using ⟨h1, h2, h3⟩

/-- `addSubscription` of a pair already present in both indexes changes
nothing (JS `Set.add` of a member). -/
lemma addSubscription_mem_eq_self (c : C) (topic : T) (s : RoomState C T)
    (h : Inv s) (hmem1 : topic ∈ s.byConn c) (hmem2 : c ∈ s.byTopic topic) :
    addSubscription c topic s = s := by
  obtain ⟨h1, h2, h3⟩ := h
  have hck : c ∈ s.byConnKeys := (h2 c).mpr (Finset.ne_empty_of_mem hmem1)
  have htk : topic ∈ s.byTopicKeys := (h3 topic).mpr (Finset.ne_empty_of_mem hmem2)
  have e1 : insert topic (s.byConn c) = s.byConn c := Finset.insert_eq_self.mpr hmem1
  have e2 : insert c (s.byTopic topic) = s.byTopic topic := Finset.insert_eq_self.mpr hmem2
  unfold addSubscription
  rw [e1, e2, Function.update_eq_self, Function.update_eq_self,
    Finset.insert_eq_self.mpr hck, Finset.insert_eq_self.mpr htk]

end RoomState

/-- Room type: JS `'public' | 'protected'`. -/
inductive RoomType
  | publicRoom
  | protectedRoom
deriving DecidableEq, Repr

/-- An entry of `#roomPatterns`, or the synthetic configuration
`#findRoomConfig` builds for a public room.  `V` abstracts the validator
function value. -/
structure RoomConfig (T V : Type) where
  pattern : T
  validator : Option V
  rtype : RoomType
deriving DecidableEq, Repr

/-- Result of `await validator(connection, captures, data)` for one call:
a boolean, or a throw/rejection. -/
inductive ValidatorOutcome
  | ok (allowed : Bool)
  | threw
deriving DecidableEq, Repr

/-- The `{success, error?}` record returned by `subscribe`/`unsubscribe`. -/
structure SubscribeResult where
  success : Bool
  error : Option String
deriving DecidableEq, Repr

/-- A `room:subscribed` bus event `{connection, topic}`. -/
structure RoomSubscribedEvent (C T : Type) where
  connection : C
  topic : T
deriving DecidableEq, Repr

/-- `#findRoomConfig` (`RoomManager.js` 284–298): exact public match first,
else the first protected pattern that matches (the `#roomPatterns` array is
kept sorted by specificity descending, ties in declaration order, by
`declare`). -/
def findRoomConfig {T V : Type} [DecidableEq T] (publicRooms : Finset T)
    (roomPatterns : List (RoomConfig T V)) (matchFn : T → T → Bool) (topic : T) :
    Option (RoomConfig T V) :=
  if topic ∈ publicRooms then some ⟨topic, none, .publicRoom⟩
  else roomPatterns.find? (fun cfg => matchFn topic cfg.pattern)

/-- `RoomManager.subscribe` (`RoomManager.js` 121–164).  `runValidator`
abstracts `await validator(connection, captures, data)` with the captures of
`matchWithCaptures(topic, pattern)`; the returned list holds the
`room:subscribed` events emitted. -/
def subscribe {C T V : Type} [DecidableEq C] [DecidableEq T]
    (publicRooms : Finset T) (roomPatterns : List (RoomConfig T V))
    (matchFn : T → T → Bool) (runValidator : V → ValidatorOutcome)
    (c : C) (topic : T) (s : RoomState C T) :
    RoomState C T × SubscribeResult × List (RoomSubscribedEvent C T) :=
  match findRoomConfig publicRooms roomPatterns matchFn topic with
  | none => (s, ⟨false, some "Room not declared (deny by default)"⟩, [])
  | some cfg =>
    match cfg.rtype, cfg.validator with
    | .protectedRoom, some v =>
      match runValidator v with
      | .threw => (s, ⟨false, some "Validator error"⟩, [])
      | .ok false => (s, ⟨false, some "Permission denied"⟩, [])
      | .ok true => (RoomState.addSubscription c topic s, ⟨true, none⟩, [⟨c, topic⟩])
    | _, _ => (RoomState.addSubscription c topic s, ⟨true, none⟩, [⟨c, topic⟩])

/-- `RoomManager.unsubscribe` (`RoomManager.js` 173–185): remove from both
indexes; `success` is whether any removal occurred. -/
def unsubscribe {C T : Type} [DecidableEq C] [DecidableEq T]
    (c : C) (topic : T) (s : RoomState C T) : RoomState C T × SubscribeResult :=
  ((RoomState.removeSubscription c topic s).1,
    ⟨(RoomState.removeSubscription c topic s).2, none⟩)

/-- The state returned by `subscribe` is either the input (all failure paths)
or `addSubscription` (the success path). -/
lemma subscribe_state_cases {C T V : Type} [DecidableEq C] [DecidableEq T]
    (publicRooms : Finset T) (roomPatterns : List (RoomConfig T V))
    (matchFn : T → T → Bool) (runValidator : V → ValidatorOutcome)
    (c : C) (topic : T) (s : RoomState C T) :
    (subscribe publicRooms roomPatterns matchFn runValidator c topic s).1 = s ∨
      (subscribe publicRooms roomPatterns matchFn runValidator c topic s).1 =
        RoomState.addSubscription c topic s := by
  unfold subscribe
  cases hfind : findRoomConfig publicRooms roomPatterns matchFn topic with
  | none => simp
  | some cfg =>
    obtain ⟨p, v, rt⟩ := cfg
    cases rt with
    | publicRoom => cases v <;> simp
    | protectedRoom =>
      cases v with
      | none => simp
      | some vv =>
        cases hrv : runValidator vv with
        | ok b => cases b <;> simp [hrv]
        | threw => simp [hrv]

/-- The `{targets, sent}` record returned by `broadcast`. -/
structure BroadcastResult where
  targets : ℕ
  sent : ℕ
deriving DecidableEq, Repr

/-- An outgoing wire `Event` as built by `conn.emit(topicOrPattern, data)`. -/
structure WireEvent (T D : Type) where
  topic : T
  payload : D

/-- The deduplicated target set of `RoomManager.broadcast` (`RoomManager.js`
199–217): fast path, the exact-topic set; slow path, every connection one of
whose subscribed topics matches the argument as a pattern.  The JS `Set`
deduplicates, which `Finset` union does inherently. -/
def broadcastTargets {C T : Type} [DecidableEq C] [DecidableEq T]
    (matchFn : T → T → Bool) (p : T) (s : RoomState C T) : Finset C :=
  s.byTopic p ∪
    s.byConnKeys.filter (fun c => (s.byConn c).filter (fun t => matchFn t p) ≠ ∅)

/-- `RoomManager.broadcast` (`RoomManager.js` 198–229): collect and
deduplicate the targets, send the event — whose topic is the broadcast
argument verbatim — to each target in state `OPEN`, and return
`{targets, sent}`.  The middle component is the set of connections actually
sent to; the last is the event each of them receives. -/
def broadcast {C T D : Type} [DecidableEq C] [DecidableEq T]
    (matchFn : T → T → Bool) (connState : C → CState) (p : T) (payload : D)
    (s : RoomState C T) : BroadcastResult × Finset C × WireEvent T D :=
  (⟨(broadcastTargets matchFn p s).card,
      ((broadcastTargets matchFn p s).filter (fun c => connState c = .OPEN)).card⟩,
    (broadcastTargets matchFn p s).filter (fun c => connState c = .OPEN),
    ⟨p, payload⟩)

/-- **C5.** Bidirectional consistency of the broker indexes: a `(c, t)` pair
is in `byTopic[t]` iff it is in `byConnection[c]`, with emptied sets deleted
from both key indexes; the invariant is preserved by every `subscribe`
(whatever its outcome), `unsubscribe`, and `cleanup`. -/
theorem broker_pair_invariant {C T V : Type} [DecidableEq C] [DecidableEq T]
    (publicRooms : Finset T) (roomPatterns : List (RoomConfig T V))
    (matchFn : T → T → Bool) (runValidator : V → ValidatorOutcome)
    (c : C) (t : T) (s : RoomState C T) (h : RoomState.Inv s) :
    RoomState.Inv (subscribe publicRooms roomPatterns matchFn runValidator c t s).1 ∧
      RoomState.Inv (unsubscribe c t s).1 ∧
      RoomState.Inv (RoomState.cleanup c s) := by
  refine ⟨?_, RoomState.inv_removeSubscription c t s h, RoomState.inv_cleanup c s h⟩
  rcases subscribe_state_cases publicRooms roomPatterns matchFn runValidator c t s with
    hc | hc <;> rw [hc]
  · exact h
  · exact RoomState.inv_addSubscription c t s h

/-- The broker's indexes at server start: both maps empty. -/
def brokerEmpty : RoomState ℕ ℕ :=
  ⟨∅, fun _ => ∅, ∅, fun _ => ∅⟩

lemma inv_brokerEmpty : RoomState.Inv brokerEmpty := by
  refine ⟨?_, ?_, ?_⟩ <;> intro x <;> simp [brokerEmpty]

/-- Witness for C5 at the empty broker with one subscription added. -/
theorem broker_pair_invariant_witness :
    RoomState.Inv (RoomState.cleanup 0
      (subscribe (∅ : Finset ℕ) ([] : List (RoomConfig ℕ Unit))
        (fun t p => decide (t = p)) (fun _ => .ok true) 0 5 brokerEmpty).1) := by
  have h1 := (broker_pair_invariant (∅ : Finset ℕ) ([] : List (RoomConfig ℕ Unit))
    (fun t p => decide (t = p)) (fun _ => .ok true) 0 5 brokerEmpty inv_brokerEmpty).1
  exact (broker_pair_invariant (∅ : Finset ℕ) ([] : List (RoomConfig ℕ Unit))
    (fun t p => decide (t = p)) (fun _ => .ok true) 0 5 _ h1).2.2

/-- **C6.** `subscribe` outcomes: with no public room equal to the topic and
no protected pattern matching it, it fails with `"Room not declared (deny by
default)"` and changes nothing; on a protected room it fails with
`"Validator error"` when the validator throws or rejects and with
`"Permission denied"` when it returns `false`; when the validator passes, the
pair is added to both indexes, a `room:subscribed` event is emitted, and the
call succeeds. -/
theorem subscribe_outcomes {C T V : Type} [DecidableEq C] [DecidableEq T]
    (publicRooms : Finset T) (roomPatterns : List (RoomConfig T V))
    (matchFn : T → T → Bool) (runValidator : V → ValidatorOutcome)
    (c : C) (topic : T) (s : RoomState C T) :
    (topic ∉ publicRooms →
      (∀ cfg ∈ roomPatterns, ¬ matchFn topic cfg.pattern = true) →
      subscribe publicRooms roomPatterns matchFn runValidator c topic s =
        (s, ⟨false, some "Room not declared (deny by default)"⟩, [])) ∧
    (∀ cfg v, findRoomConfig publicRooms roomPatterns matchFn topic = some cfg →
      cfg.rtype = .protectedRoom → cfg.validator = some v →
      ((runValidator v = .threw →
          subscribe publicRooms roomPatterns matchFn runValidator c topic s =
            (s, ⟨false, some "Validator error"⟩, [])) ∧
       (runValidator v = .ok false →
          subscribe publicRooms roomPatterns matchFn runValidator c topic s =
            (s, ⟨false, some "Permission denied"⟩, [])) ∧
       (runValidator v = .ok true →
          subscribe publicRooms roomPatterns matchFn runValidator c topic s =
            (RoomState.addSubscription c topic s, ⟨true, none⟩, [⟨c, topic⟩]) ∧
          c ∈ (RoomState.addSubscription c topic s).byTopic topic ∧
          topic ∈ (RoomState.addSubscription c topic s).byConn c))) := by
  constructor
  · intro hpub hmatch
    have hfind : findRoomConfig publicRooms roomPatterns matchFn topic = none := by
      simp [findRoomConfig, hpub, List.find?_eq_none]
      exact fun cfg hm => Bool.not_eq_true _ ▸ hmatch cfg hm
    simp [subscribe, hfind]
  · intro cfg v hfind hrt hval
    obtain ⟨p, v', rt⟩ := cfg
    simp only at hrt hval
    subst hrt; subst hval
    refine ⟨?_, ?_, ?_⟩ <;> intro hrv <;>
      simp [subscribe, hfind, hrv, RoomState.addSubscription, Function.update_same]

/-- Witness for C6: one protected room `5` whose validator passes; the
subscription succeeds and lands in both indexes. -/
theorem subscribe_outcomes_witness :
    subscribe (∅ : Finset ℕ) [⟨5, some (), .protectedRoom⟩]
        (fun t p => decide (t = p)) (fun _ => .ok true) 3 5 brokerEmpty =
      (RoomState.addSubscription 3 5 brokerEmpty, ⟨true, none⟩, [⟨3, 5⟩]) := by
  have h := (subscribe_outcomes (∅ : Finset ℕ) [⟨5, some (), .protectedRoom⟩]
    (fun t p => decide (t = p)) (fun _ => .ok true) 3 5 brokerEmpty).2
    ⟨5, some (), .protectedRoom⟩ () (by decide) rfl rfl
  exact (h.2.2 rfl).1

/-- **C7.** `broadcast` targets are exactly the union of the exact-topic
subscribers and the connections with a subscribed topic matching the argument
as a pattern (deduplicated); the event is sent only to targets in state
`OPEN` and carries the broadcast argument verbatim as its topic; `targets`
counts the whole set and `sent` exactly the `OPEN` ones. -/
theorem broadcast_counts {C T D : Type} [DecidableEq C] [DecidableEq T]
    (matchFn : T → T → Bool) (connState : C → CState) (p : T) (payload : D)
    (s : RoomState C T) (h : RoomState.Inv s) :
    (∀ c, c ∈ broadcastTargets matchFn p s ↔
        (c ∈ s.byTopic p ∨ ∃ t ∈ s.byConn c, matchFn t p = true)) ∧
    (broadcast matchFn connState p payload s).1.targets =
      (broadcastTargets matchFn p s).card ∧
    (broadcast matchFn connState p payload s).1.sent =
      ((broadcastTargets matchFn p s).filter (fun c => connState c = .OPEN)).card ∧
    (broadcast matchFn connState p payload s).2.1 =
      (broadcastTargets matchFn p s).filter (fun c => connState c = .OPEN) ∧
    (broadcast matchFn connState p payload s).2.2.topic = p := by
  obtain ⟨h1, h2, h3⟩ := h
  refine ⟨?_, rfl, rfl, rfl, rfl⟩
  intro c
  simp only [broadcastTargets, Finset.mem_union, Finset.mem_filter]
  constructor
  · rintro (hm | ⟨-, hne⟩)
    · exact Or.inl hm
    · rcases Finset.nonempty_iff_ne_empty.mpr hne with ⟨t, ht⟩
      rcases Finset.mem_filter.mp ht with ⟨ht1, ht2⟩
      exact Or.inr ⟨t, ht1, ht2⟩
  · rintro (hm | ⟨t, ht1, ht2⟩)
    · exact Or.inl hm
    · refine Or.inr ⟨(h2 c).mpr (Finset.ne_empty_of_mem ht1), ?_⟩
      exact Finset.nonempty_iff_ne_empty.mp ⟨t, Finset.mem_filter.mpr ⟨ht1, ht2⟩⟩

/-- Witness for C7: one subscriber to topic `5`, broadcast to `5`. -/
theorem broadcast_counts_witness :
    1 ∈ broadcastTargets (fun t p => decide (t = p)) 5
      (RoomState.addSubscription 1 5 brokerEmpty) := by
  have h := (broadcast_counts (fun t p => decide (t = p))
    (fun _ => CState.OPEN) 5 (0 : ℕ) (RoomState.addSubscription 1 5 brokerEmpty)
    (RoomState.inv_addSubscription 1 5 brokerEmpty inv_brokerEmpty)).1 1
  refine h.mpr (Or.inl ?_)
  simp [RoomState.addSubscription, brokerEmpty, Function.update_same]

/-- **C10.** Subscription is idempotent on broker state: if the pair
`(c, topic)` is already in both indexes, a further successful `subscribe`
leaves the state — both key indexes and both membership maps, hence also the
connection's subscription count — unchanged. -/
theorem subscribe_idempotent {C T V : Type} [DecidableEq C] [DecidableEq T]
    (publicRooms : Finset T) (roomPatterns : List (RoomConfig T V))
    (matchFn : T → T → Bool) (runValidator : V → ValidatorOutcome)
    (c : C) (topic : T) (s : RoomState C T) (h : RoomState.Inv s)
    (hmem1 : topic ∈ s.byConn c) (hmem2 : c ∈ s.byTopic topic)
    (hsucc : (subscribe publicRooms roomPatterns matchFn runValidator
      c topic s).2.1.success = true) :
    (subscribe publicRooms roomPatterns matchFn runValidator c topic s).1 = s ∧
    ((subscribe publicRooms roomPatterns matchFn runValidator
      c topic s).1.byConn c).card = (s.byConn c).card := by
  have hstate :
      (subscribe publicRooms roomPatterns matchFn runValidator c topic s).1 = s := by
    rcases subscribe_state_cases publicRooms roomPatterns matchFn runValidator
      c topic s with hc | hc
    · exact hc
    · rw [hc, RoomState.addSubscription_mem_eq_self c topic s h hmem1 hmem2]
  exact ⟨hstate, by rw [hstate]⟩

/-- Witness for C10: re-subscribing an already-subscribed pair in a declared
public room leaves the broker state unchanged. -/
theorem subscribe_idempotent_witness :
    (subscribe ({5} : Finset ℕ) ([] : List (RoomConfig ℕ Unit))
        (fun t p => decide (t = p)) (fun _ => .ok true) 1 5
        (RoomState.addSubscription 1 5 brokerEmpty)).1 =
      RoomState.addSubscription 1 5 brokerEmpty := by
  refine (subscribe_idempotent ({5} : Finset ℕ) ([] : List (RoomConfig ℕ Unit))
    (fun t p => decide (t = p)) (fun _ => .ok true) 1 5
    (RoomState.addSubscription 1 5 brokerEmpty)
    (RoomState.inv_addSubscription 1 5 brokerEmpty inv_brokerEmpty)
    ?_ ?_ ?_).1 <;>
    simp [RoomState.addSubscription, brokerEmpty, Function.update_same, subscribe,
      findRoomConfig]

/-! ## `Connection.reconnect` (`src/connection.js` 162–172) and health reset

`reconnect(newWs)` in `src/connection.js` replaces the socket and sets
`state = 'OPEN'`; every other field of the `Connection` persists.  The
health-check portion of `Connection` (`missedPongs`, `lastPingAt`,
`lastPongAt`, `pingIntervalId`, `pingTimeoutId`, `startHealthCheck`,
`stopHealthCheck`, `handlePong`) is invoked from `src/helios.js` and
exercised by `tests/health-check.test.js`, but its implementation file is
absent from the snapshot; its reconnect behavior is modelled from the
spec. -/

/-- The per-connection health-check fields (spec §4.3/§4.5 and
`tests/health-check.test.js`). -/
structure HealthState where
  missedPongs : ℕ
  lastPingAt : Option ℚ
  lastPongAt : Option ℚ
  /-- the repeating ping timer (`pingIntervalId`) is installed -/
  pingIntervalActive : Bool
  /-- the one-shot pong-timeout timer (`pingTimeoutId`) is installed -/
  pingTimeoutActive : Bool
deriving DecidableEq, Repr

/-- A `Connection` with the fields `reconnect` can observe.  `W` is the
socket-handle type; `Dm`, `Tp`, `Pr` keep `data`, `topics` and
`pendingRequests` opaque — the swap may not look inside them. -/
structure ConnFull (W Dm Tp Pr : Type) where
  ws : W
  state : CState
  data : Dm
  topics : Tp
  pendingRequests : Pr
  sessionId : Option ℕ
  lastTokenRefresh : ℚ
  health : HealthState

/-- The body of `Connection.reconnect` written in `src/connection.js`
162–172: replace the socket, set `state = 'OPEN'`, leave everything else. -/
def reconnectCore {W Dm Tp Pr : Type} (newWs : W) (c : ConnFull W Dm Tp Pr) :
    ConnFull W Dm Tp Pr :=
  { c with ws := newWs, state := .OPEN }

/-- Modelled from the spec: the health-check reset performed on reconnect —
`missedPongs = 0`, `lastPongAt = now`, `lastPingAt = null`, both timers
cleared, ping loop restarted (spec §4.3/§4.5; the health-check
implementation is not under `src/`, and `tests/health-check.test.js`
'should reset health check state on reconnect' asserts exactly this
post-state). -/
def healthResetOnReconnect {W Dm Tp Pr : Type} (now : ℚ) (c : ConnFull W Dm Tp Pr) :
    ConnFull W Dm Tp Pr :=
  { c with health :=
      { missedPongs := 0, lastPingAt := none, lastPongAt := some now,
        pingIntervalActive := true, pingTimeoutActive := false } }

/-- `Connection.reconnect(newWs)` at time `now`: the socket swap from the
source plus the spec-modelled health reset. -/
def reconnect {W Dm Tp Pr : Type} (newWs : W) (now : ℚ) (c : ConnFull W Dm Tp Pr) :
    ConnFull W Dm Tp Pr :=
  healthResetOnReconnect now (reconnectCore newWs c)

/-- **C4.** `reconnect(newTransport)` replaces the transport handle, sets
the state to `OPEN`, resets the health-check counters (`missedPongs = 0`,
`lastPongAt = now`, `lastPingAt = null`, pong-timeout timer cleared, ping
loop restarted) — and touches no other field: `userData`, the subscriptions
and `pendingRequests` are the same objects after the swap, and `sessionId`
and `lastTokenRefresh` are untouched. -/
theorem reconnect_swaps_transport_only {W Dm Tp Pr : Type}
    (newWs : W) (now : ℚ) (c : ConnFull W Dm Tp Pr) :
    (reconnect newWs now c).ws = newWs ∧
    (reconnect newWs now c).state = .OPEN ∧
    (reconnect newWs now c).health = ⟨0, none, some now, true, false⟩ ∧
    (reconnect newWs now c).data = c.data ∧
    (reconnect newWs now c).topics = c.topics ∧
    (reconnect newWs now c).pendingRequests = c.pendingRequests ∧
    (reconnect newWs now c).sessionId = c.sessionId ∧
    (reconnect newWs now c).lastTokenRefresh = c.lastTokenRefresh :=
  ⟨rfl, rfl, rfl, rfl, rfl, rfl, rfl, rfl⟩

/-! ## Sending (`Connection.send` and wrappers, `src/connection.js` 51–74) -/

/-- An outgoing message; `id` is `""` when the message carries none (the JS
falsy check `!message.id`). -/
structure Msg where
  id : String
deriving DecidableEq, Repr

/-- Outcome of `send`: a thrown error, or the returned boolean. -/
inductive SendOutcome
  | threw (message : String)
  | ret (ok : Bool)
deriving DecidableEq, Repr

/-- `Connection.send` (`src/connection.js` 52–62): throw when the message
has no id; otherwise attempt `this.ws.send(Serializer.serialize(message))` —
`writeOk` abstracts whether that call throws — returning `true` on success
and `false` when the write throws.  The second component records whether a
transport write was attempted.  The connection `state` is an argument only
to exhibit that the method never reads it. -/
def send (state : CState) (m : Msg) (writeOk : Bool) : SendOutcome × Bool :=
  if m.id = "" then (.threw "Message must have an ID to be sent", false)
  else if writeOk then (.ret true, true) else (.ret false, true)

/-- `Connection.emit(topic, data)` (`src/connection.js` 74) delegates to
`send` on the Event built by the wire codec (`Event.outgoing`); `mkEvent`
abstracts that constructor.  `json`/`text`/`binary` delegate identically via
`Message.outgoing`. -/
def emit {T : Type} (mkEvent : T → Msg) (state : CState) (topic : T)
    (writeOk : Bool) : SendOutcome × Bool :=
  send state (mkEvent topic) writeOk

/-- The errors the tracker can signal synchronously. -/
inductive HeliosError
  | connectionClosed
deriving DecidableEq, Repr

/-- The synchronous state check at the top of `Connection.request`
(`src/connection.js` 78–81): a non-`OPEN` connection rejects with
`ConnectionClosedError` before any pending entry is installed. -/
def requestGate (state : CState) : Except HeliosError Unit :=
  if state ≠ .OPEN then .error .connectionClosed else .ok ()

/-- Counterexample to C8 as stated: `send` on a connection whose `state` is
`CLOSED` does not fail fast with a CONNECTION_CLOSED signal — it never reads
the state, writes to the transport, and here returns `true`. -/
theorem send_closed_counterexample :
    send .CLOSED ⟨"m1"⟩ true = (.ret true, true) ∧
      (send .CLOSED ⟨"m1"⟩ true).2 = true := by
  exact ⟨by decide, by decide⟩

/-- **C8 (amended).** `send` — and the `emit`/`json`/`text`/`binary`
wrappers, which delegate to it — never consults the connection state: its
result is state-independent, and for any message with an id it attempts the
transport write even on a non-`OPEN` connection, returning the write result.
Only `request` fails fast with a CONNECTION_CLOSED signal when
`state ≠ OPEN`, rejecting synchronously before enqueueing. -/
theorem send_ignores_state {T : Type} (mkEvent : T → Msg)
    (st : CState) (m : Msg) (topic : T) (writeOk : Bool)
    (hid : m.id ≠ "") (hst : st ≠ .OPEN) :
    send st m writeOk = send .OPEN m writeOk ∧
    (send st m writeOk).2 = true ∧
    emit mkEvent st topic writeOk = send st (mkEvent topic) writeOk ∧
    requestGate st = .error .connectionClosed := by
  refine ⟨rfl, ?_, rfl, ?_⟩
  · cases writeOk <;> simp [send, hid]
  · simp [requestGate, hst]

/-- Witness for C8's amended theorem on a closed connection. -/
theorem send_ignores_state_witness :
    (send .CLOSED ⟨"m1"⟩ false).2 = true ∧
      requestGate .CLOSED = .error .connectionClosed := by
  have h := send_ignores_state (fun _ : Unit => (⟨"e"⟩ : Msg)) .CLOSED ⟨"m1"⟩ () false
    (by decide) (by decide)
  exact ⟨h.2.1, h.2.2.2⟩

/-! ## Token-refresh rate limiting (`src/connection.js` 179–198) -/

/-- `Connection.canRefreshToken`: `false` without a `sessionId` or without a
configured session manager; otherwise `true` iff
`Date.now() - this.lastTokenRefresh ≥ this.helios.sessionManager.ttl / 2`.
`ttl?` is the manager's TTL when one exists. -/
def canRefreshToken (sessionId : Option ℕ) (ttl? : Option ℚ)
    (now lastTokenRefresh : ℚ) : Bool :=
  match sessionId, ttl? with
  | some _, some ttl => decide (now - lastTokenRefresh ≥ ttl / 2)
  | _, _ => false

/-- `Connection.getTimeUntilRefreshAllowed`: `0` without a session manager,
else `Math.max(0, ttl/2 - (now - lastTokenRefresh))`. -/
def getTimeUntilRefreshAllowed (ttl? : Option ℚ) (now lastTokenRefresh : ℚ) : ℚ :=
  match ttl? with
  | none => 0
  | some ttl => max 0 (ttl / 2 - (now - lastTokenRefresh))

/-- **C9.** With a session manager configured (TTL `ttl`): `canRefreshToken`
is true iff `sessionId` is set and the time elapsed since `lastTokenRefresh`
is at least `ttl/2`; it is false immediately after connection creation
(where `lastTokenRefresh = Date.now()`) for any positive TTL; it is true
once `lastRefresh + ttl/2` is reached; and `getTimeUntilRefreshAllowed`
returns the nonnegative remainder `max 0 (ttl/2 − elapsed)`. -/
theorem canRefreshToken_iff (sessionId : Option ℕ) (ttl now last : ℚ) :
    (canRefreshToken sessionId (some ttl) now last = true ↔
      (sessionId ≠ none ∧ now - last ≥ ttl / 2)) ∧
    (0 < ttl → canRefreshToken sessionId (some ttl) now now = false) ∧
    (sessionId ≠ none → now ≥ last + ttl / 2 →
      canRefreshToken sessionId (some ttl) now last = true) ∧
    getTimeUntilRefreshAllowed (some ttl) now last =
      max 0 (ttl / 2 - (now - last)) := by
  refine ⟨?_, ?_, ?_, rfl⟩
  · cases sessionId with
    | none => simp [canRefreshToken]
    | some sid => simp [canRefreshToken]
  · intro hl
    cases sessionId with
    | none => simp [canRefreshToken]
    | some sid =>
      simp only [canRefreshToken, decide_eq_false_iff_not]
      intro hge
      simp only [ge_iff_le, sub_self] at hge
      linarith
  · intro hs hge
    cases sessionId with
    | none => exact absurd rfl hs
    | some sid =>
      simp only [canRefreshToken, decide_eq_true_eq]
      linarith

/-- Witness for C9: session id set, TTL 100, 50 ms elapsed ≥ 50 = TTL/2. -/
theorem canRefreshToken_iff_witness :
    canRefreshToken (some 1) (some 100) 50 0 = true := by
  exact (canRefreshToken_iff (some 1) 100 50 0).2.2.1 (by simp) (by norm_num)

/-! ## Close handling (`Helios.handleClose`, `src/helios.js` 225–303) -/

/-- One `pendingRequests` waiter as `handleClose` sees it (`{timeoutId,
cleanup, reject}`), plus the settlement state of the promise it guards. -/
structure Waiter where
  timerActive : Bool
  completed : Option Completion
deriving DecidableEq, Repr

/-- The teardown loop body for one waiter: `clearTimeout(timeoutId)`,
`cleanup()`, then `reject(new ConnectionClosedError('Connection closed'))` —
a no-op on an already-settled promise. -/
def closeWaiter (w : Waiter) : Waiter :=
  ⟨false, w.completed.orElse (fun _ => some .closedErr)⟩

/-- Observable effects of `handleClose`, in program order. -/
inductive CloseEffect
  /-- a waiter's promise was rejected with `ConnectionClosedError` -/
  | rejected (requestId : ℕ)
  /-- the `disconnection` bus event was emitted -/
  | disconnectionEmitted
deriving DecidableEq, Repr

/-- The connection fields `handleClose` reads and writes.  `dataKeys` and
`topicHandlers` stand for the keys of the `data` map and the handlers of the
connection's `topics` event manager, both of which the teardown clears. -/
structure CloseConn where
  sessionId : Option ℕ
  state : CState
  pending : List (ℕ × Waiter)
  dataKeys : Finset ℕ
  topicHandlers : Finset ℕ
deriving DecidableEq

/-- The server state `handleClose` touches: the closing connection, the key
set of the registry's transport index, and the room broker's indexes
(connections and topics as naturals). -/
structure CloseCtx where
  conn : CloseConn
  registryKeys : Finset ℕ
  broker : RoomState ℕ ℕ

/-- `Helios.handleClose` (`src/helios.js` 225–303) for the connection found
under socket key `w`, with broker identity `cid`; `recoveryEnabled` is
`!!this.sessionManager`.  Output: new state, the final settlement of each
waiter that was pending, and the ordered effect list.

With recovery enabled and a `sessionId`, only `markDisconnected` runs (the
socket leaves the transport index), the state becomes `CLOSED` and
`disconnection` is emitted — no teardown.  Otherwise the full teardown runs:
each pending waiter's timer is cleared and its promise rejected with
`ConnectionClosedError`, the pending map is cleared, the connection's topics
manager and data map are cleared, the state becomes `CLOSED`, the socket is
removed from the registry, and `disconnection` is emitted last.

The call `Broker.cleanup(connection)` on the teardown path is modelled from
the spec (§4.7 close step 3): the rooms wiring that connects `RoomManager`
to the coordinator (its built-in RPC methods and the disconnection cleanup)
is not in the snapshot, which contains `RoomManager` itself only. -/
def handleClose (recoveryEnabled : Bool) (w cid : ℕ) (ctx : CloseCtx) :
    CloseCtx × List (ℕ × Waiter) × List CloseEffect :=
  let conn1 := { ctx.conn with state := CState.CLOSING }
  if recoveryEnabled ∧ conn1.sessionId ≠ none then
    ({ ctx with
        conn := { conn1 with state := CState.CLOSED },
        registryKeys := ctx.registryKeys.erase w },
      conn1.pending,
      [.disconnectionEmitted])
  else
    ({ conn :=
        { conn1 with
          pending := [],
          topicHandlers := ∅,
          dataKeys := ∅,
          state := CState.CLOSED },
       registryKeys := ctx.registryKeys.erase w,
       broker := RoomState.cleanup cid ctx.broker },
      conn1.pending.map (fun pr => (pr.1, closeWaiter pr.2)),
      (conn1.pending.filterMap fun pr =>
        if pr.2.completed = none then some (CloseEffect.rejected pr.1) else none)
        ++ [.disconnectionEmitted])

lemma cleanup_clears_connection (cid : ℕ) (s : RoomState ℕ ℕ) (h : RoomState.Inv s) :
    (RoomState.cleanup cid s).byConn cid = ∅ ∧
      ∀ t, cid ∉ (RoomState.cleanup cid s).byTopic t := by
  obtain ⟨h1, h2, h3⟩ := h
  by_cases hck : cid ∈ s.byConnKeys
  · refine ⟨by simp [RoomState.cleanup, hck, Function.update_same], ?_⟩
    intro t
    by_cases ht : t ∈ s.byConn cid
    · simp [RoomState.cleanup, hck, ht, Finset.mem_erase]
    · simp only [RoomState.cleanup, hck, if_true, ht, if_false]
      exact fun hm => ht ((h1 cid t).mp hm)
  · have hempty : s.byConn cid = ∅ := by
      by_contra hne
      exact hck ((h2 cid).mpr hne)
    refine ⟨by simp [RoomState.cleanup, hck, hempty], ?_⟩
    intro t
    simp only [RoomState.cleanup, hck, if_false]
    intro hm
    have := (h1 cid t).mp hm
    rw [hempty] at this
    exact absurd this (Finset.not_mem_empty t)

lemma map_closeWaiter_all_pending (l : List (ℕ × Waiter))
    (h : ∀ pr ∈ l, pr.2.completed = none) :
    l.map (fun pr => (pr.1, closeWaiter pr.2)) =
      l.map (fun pr => (pr.1, (⟨false, some .closedErr⟩ : Waiter))) := by
  induction l with
  | nil => rfl
  | cons hd tl ih =>
    have hhd := h hd (List.mem_cons_self hd tl)
    simp only [List.map_cons, List.cons.injEq]
    exact ⟨by simp [closeWaiter, hhd],
      ih (fun pr hpr => h pr (List.mem_cons_of_mem hd hpr))⟩

lemma rejections_all_pending (l : List (ℕ × Waiter))
    (h : ∀ pr ∈ l, pr.2.completed = none) :
    (l.filterMap fun pr =>
        if pr.2.completed = none then some (CloseEffect.rejected pr.1) else none) =
      l.map fun pr => CloseEffect.rejected pr.1 := by
  induction l with
  | nil => rfl
  | cons hd tl ih =>
    have hhd := h hd (List.mem_cons_self hd tl)
    simp only [List.filterMap_cons, hhd, if_pos, List.map_cons]
    rw [ih (fun pr hpr => h pr (List.mem_cons_of_mem hd hpr))]

/-- **C3.** When the close event is handled for a connection with no
`sessionId` (or with session recovery disabled), the full teardown runs:
every pending waiter's timer is cancelled and its promise rejected —
settled exactly once, with `ConnectionClosedError` — the pending map ends
empty, the connection's subscription pairs disappear from both broker
indexes via the broker cleanup, the topics manager and the data map are
cleared, the state is `CLOSED`, the socket is removed from the registry, and
the `disconnection` event is emitted after all the rejections. -/
theorem handleClose_full_teardown (recoveryEnabled : Bool) (w cid : ℕ)
    (ctx : CloseCtx)
    (hbranch : recoveryEnabled = false ∨ ctx.conn.sessionId = none)
    (hpending : ∀ pr ∈ ctx.conn.pending, pr.2.completed = none)
    (hinv : RoomState.Inv ctx.broker) :
    (handleClose recoveryEnabled w cid ctx).1.conn.pending = [] ∧
    (handleClose recoveryEnabled w cid ctx).2.1 =
      ctx.conn.pending.map (fun pr => (pr.1, (⟨false, some .closedErr⟩ : Waiter))) ∧
    (handleClose recoveryEnabled w cid ctx).1.conn.dataKeys = ∅ ∧
    (handleClose recoveryEnabled w cid ctx).1.conn.topicHandlers = ∅ ∧
    (handleClose recoveryEnabled w cid ctx).1.conn.state = .CLOSED ∧
    w ∉ (handleClose recoveryEnabled w cid ctx).1.registryKeys ∧
    (handleClose recoveryEnabled w cid ctx).1.broker.byConn cid = ∅ ∧
    (∀ t, cid ∉ (handleClose recoveryEnabled w cid ctx).1.broker.byTopic t) ∧
    (handleClose recoveryEnabled w cid ctx).2.2 =
      (ctx.conn.pending.map fun pr => CloseEffect.rejected pr.1)
        ++ [.disconnectionEmitted] := by
  have hcond : ¬(recoveryEnabled = true ∧ ctx.conn.sessionId ≠ none) := by
    rcases hbranch with hb | hb
    · rintro ⟨h1, -⟩; rw [hb] at h1; cases h1
    · rintro ⟨-, h2⟩; exact h2 hb
  have hclears := cleanup_clears_connection cid ctx.broker hinv
  refine ⟨?_, ?_, ?_, ?_, ?_, ?_, ?_, ?_, ?_⟩
  · simp [handleClose, ne_eq, hcond]
  · simp only [handleClose, ne_eq, hcond, if_false]
    exact map_closeWaiter_all_pending ctx.conn.pending hpending
  · simp [handleClose, ne_eq, hcond]
  · simp [handleClose, ne_eq, hcond]
  · simp [handleClose, ne_eq, hcond]
  · simp [handleClose, ne_eq, hcond]
  · simp only [handleClose, ne_eq, hcond, if_false]
    exact hclears.1
  · intro t
    simp only [handleClose, ne_eq, hcond, if_false]
    exact hclears.2 t
  · simp only [handleClose, ne_eq, hcond, if_false]
    rw [rejections_all_pending ctx.conn.pending hpending]

/-- The concrete pre-close state for the C3 witness: one pending request,
one data key, one topic handler, one broker subscription. -/
def ctxC3 : CloseCtx :=
  { conn := ⟨none, .OPEN, [(4, ⟨true, none⟩)], {0}, {2}⟩,
    registryKeys := {9},
    broker := RoomState.addSubscription 3 5 brokerEmpty }

/-- Witness for C3 at `ctxC3`: the teardown empties the pending map, settles
the waiter with `ConnectionClosedError`, and emits `disconnection` last. -/
theorem handleClose_full_teardown_witness :
    (handleClose false 9 3 ctxC3).1.conn.pending = [] ∧
      (handleClose false 9 3 ctxC3).2.1 = [(4, ⟨false, some .closedErr⟩)] ∧
      (handleClose false 9 3 ctxC3).2.2 =
        [CloseEffect.rejected 4, .disconnectionEmitted] := by
  have h := handleClose_full_teardown false 9 3 ctxC3 (Or.inl rfl)
    (by intro pr hpr; simp [ctxC3] at hpr; simp [hpr])
    (RoomState.inv_addSubscription 3 5 brokerEmpty inv_brokerEmpty)
  exact ⟨h.1, by simpa using h.2.1, by simpa using h.2.2.2.2.2.2.2.2⟩

end Helios
